import Mathlib

/-!
Shallow embedding of `src/animator.js` (alex-chuev/animator.js): a small
animation driver that, per frame, computes a completion coefficient
`Math.min((Date.now() - animationStartTime) / duration, 1)`, invokes every
registered callback with it, and either completes the run (when the
coefficient is exactly 1, clearing the start time and the pending
`requestAnimationFrame` handle) or schedules the next frame.

Numbers are modelled as exact rationals extended with the IEEE special
values that JavaScript division can produce (`+Infinity`, `-Infinity`,
`NaN`), since the spec explicitly discusses zero/negative durations and
negative elapsed times.  Callbacks are modelled by an identifier plus a
predicate saying at which coefficient values the callback throws; frame
dispatch produces the list of (callback id, coefficient) deliveries.
The host environment (`window.requestAnimationFrame`) is modelled as a
queue of pending frame handles in `SysState`.
-/

/-- JavaScript number values reachable in this program: an exact finite
rational, the two infinities, or NaN. -/
inductive JsVal where
  | fin (q : ℚ)
  | posInf
  | negInf
  | nan
deriving DecidableEq, Repr

/-- JavaScript division `a / b` of two finite numbers: ordinary division
when `b ≠ 0`; `±Infinity` for a nonzero numerator over zero, `NaN` for
`0 / 0`. -/
def jsDivFin (a b : ℚ) : JsVal :=
  if b = 0 then
    if 0 < a then JsVal.posInf
    else if a < 0 then JsVal.negInf
    else JsVal.nan
  else JsVal.fin (a / b)

/-- JavaScript `Math.min` on two values: NaN-propagating, with the usual
ordering on infinities. -/
def jsMin : JsVal → JsVal → JsVal
  | JsVal.nan, _ => JsVal.nan
  | _, JsVal.nan => JsVal.nan
  | JsVal.negInf, _ => JsVal.negInf
  | _, JsVal.negInf => JsVal.negInf
  | JsVal.posInf, y => y
  | x, JsVal.posInf => x
  | JsVal.fin a, JsVal.fin b => JsVal.fin (if a ≤ b then a else b)

/-- A registered animation callback: `id` identifies it in delivery
traces; `throws v` says whether invoking it with coefficient `v` raises
an exception. -/
structure Callback where
  id : ℕ
  throws : JsVal → Bool

/-- The state of one `Animator` instance: the four instance properties
`_duration`, `_callbacks`, `_animationStartTime`,
`_requestAnimationFrameID` of the constructor. -/
structure AnimatorState where
  duration : ℚ
  callbacks : List Callback
  animationStartTime : Option ℚ
  requestAnimationFrameID : Option ℕ

/-- The freshly constructed animator: duration 200, no callbacks, both
run-scoped fields null. -/
def initAnimator : AnimatorState :=
  { duration := 200, callbacks := [], animationStartTime := none,
    requestAnimationFrameID := none }

/-- `Animator.prototype.addCallback`: push the callback onto
`_callbacks`. -/
def addCallback (s : AnimatorState) (c : Callback) : AnimatorState :=
  { s with callbacks := s.callbacks ++ [c] }

/-- `Animator.prototype.setDuration`: overwrite `_duration`. -/
def setDuration (s : AnimatorState) (d : ℚ) : AnimatorState :=
  { s with duration := d }

/-- `Animator.prototype.startAnimation`: record `Date.now()` in
`_animationStartTime` and store the handle of the newly requested
animation frame. -/
def startAnimation (s : AnimatorState) (now : ℚ) (rid : ℕ) : AnimatorState :=
  { s with animationStartTime := some now,
           requestAnimationFrameID := some rid }

/-- Numeric coercion JavaScript applies to `_animationStartTime` inside
`Date.now() - this._animationStartTime`: `null` coerces to `0`. -/
def startTimeValue : Option ℚ → ℚ
  | none => 0
  | some t => t

/-- `Animator.prototype._getAnimationCompletionCoefficient`:
`Math.min((Date.now() - this._animationStartTime) / this._duration, 1)`. -/
def getAnimationCompletionCoefficient (s : AnimatorState) (now : ℚ) : JsVal :=
  jsMin (jsDivFin (now - startTimeValue s.animationStartTime) s.duration) (JsVal.fin 1)

/-- The `forEach` loop of `_animationFrame`: invoke the callbacks in list
order with the given coefficient, stopping after the first one that
throws.  Returns the deliveries `(id, coefficient)` in invocation order
and whether an exception propagated out of the loop. -/
def runCallbacks : List Callback → JsVal → List (ℕ × JsVal) × Bool
  | [], _ => ([], false)
  | c :: cs, coef =>
    if c.throws coef then ([(c.id, coef)], true)
    else
      let r := runCallbacks cs coef
      ((c.id, coef) :: r.1, r.2)

/-- `Animator.prototype._afterAnimationFrame`: when the coefficient is
exactly `1` clear `_animationStartTime` and `_requestAnimationFrameID`;
otherwise request the next frame (handle `freshID`) and store it.  The
boolean records whether `window.requestAnimationFrame` was called. -/
def afterAnimationFrame (s : AnimatorState) (coefficient : JsVal)
    (freshID : ℕ) : AnimatorState × Bool :=
  if coefficient = JsVal.fin 1 then
    ({ s with animationStartTime := none, requestAnimationFrameID := none }, false)
  else
    ({ s with requestAnimationFrameID := some freshID }, true)

/-- Result of one invocation of the frame handler: the updated animator
state, the deliveries made to callbacks, whether a callback exception
propagated, and whether a next frame was requested. -/
structure FrameResult where
  state : AnimatorState
  events : List (ℕ × JsVal)
  threw : Bool
  scheduled : Bool

/-- `Animator.prototype._animationFrame`: compute the coefficient once,
invoke all callbacks with it, then run `_afterAnimationFrame` — unless a
callback threw, in which case the exception propagates and the state is
left as it was when the frame began. -/
def animationFrame (s : AnimatorState) (now : ℚ) (freshID : ℕ) : FrameResult :=
  let coefficient := getAnimationCompletionCoefficient s now
  let r := runCallbacks s.callbacks coefficient
  if r.2 then
    { state := s, events := r.1, threw := true, scheduled := false }
  else
    let a := afterAnimationFrame s coefficient freshID
    { state := a.1, events := r.1, threw := false, scheduled := a.2 }

/-- The animator together with its host environment: the queue of
pending `requestAnimationFrame` handles and a fresh-handle counter. -/
structure SysState where
  anim : AnimatorState
  pending : List ℕ
  nextID : ℕ

/-- The initial system: a fresh animator and no pending frame request. -/
def sysInit : SysState :=
  { anim := initAnimator, pending := [], nextID := 0 }

/-- The operations the host or the consumer can perform: the three public
methods (each `start` / `fire` carries the `Date.now()` reading at which
it happens) and the host dispatching the oldest pending frame. -/
inductive Op where
  | addCallback (c : Callback)
  | setDuration (d : ℚ)
  | start (now : ℚ)
  | fire (now : ℚ)

/-- One system step: public-method calls update the animator (a `start`
enqueues a new frame request and consumes a fresh handle); `fire`
dispatches the oldest pending frame through `_animationFrame`, enqueuing
the handle of the next frame when one was requested.  Returns the new
system state and the callback deliveries of the step. -/
def sysStep (s : SysState) : Op → SysState × List (ℕ × JsVal)
  | Op.addCallback c => ({ s with anim := addCallback s.anim c }, [])
  | Op.setDuration d => ({ s with anim := setDuration s.anim d }, [])
  | Op.start now =>
    ({ anim := startAnimation s.anim now s.nextID,
       pending := s.pending ++ [s.nextID],
       nextID := s.nextID + 1 }, [])
  | Op.fire now =>
    match s.pending with
    | [] => (s, [])
    | _ :: rest =>
      let r := animationFrame s.anim now s.nextID
      ({ anim := r.state,
         pending := rest ++ (if r.scheduled then [s.nextID] else []),
         nextID := if r.scheduled then s.nextID + 1 else s.nextID }, r.events)

/-- Run a sequence of operations from a system state. -/
def sysRun (s : SysState) : List Op → SysState
  | [] => s
  | op :: ops => sysRun (sysStep s op).1 ops

/-- Precondition of one operation in a well-behaved execution:
`startAnimation` is only called while idle (no run in progress) and every
callback registered never throws.  `setDuration` calls and frame
dispatches are unrestricted. -/
def okOp (s : SysState) : Op → Prop
  | Op.start _ => s.anim.animationStartTime = none
  | Op.addCallback c => ∀ v, c.throws v = false
  | Op.setDuration _ => True
  | Op.fire _ => True

/-- A well-behaved execution: every operation satisfies `okOp` in the
state where it runs. -/
def WellBehaved : SysState → List Op → Prop
  | _, [] => True
  | s, op :: ops => okOp s op ∧ WellBehaved (sysStep s op).1 ops

/-- The run-state invariant together with the facts needed to push it
through a step: start time and stored handle are non-null exactly when a
frame request is pending, at most one frame request is ever pending, and
no registered callback throws. -/
def GoodState (s : SysState) : Prop :=
  (s.anim.animationStartTime.isSome ↔ s.pending ≠ []) ∧
  (s.anim.requestAnimationFrameID.isSome ↔ s.pending ≠ []) ∧
  s.pending.length ≤ 1 ∧
  (∀ cb ∈ s.anim.callbacks, ∀ v, cb.throws v = false)

/-- The finite-finite case of `Math.min` agrees with the order-theoretic
minimum on ℚ. -/
theorem jsMin_fin_fin (a b : ℚ) :
    jsMin (JsVal.fin a) (JsVal.fin b) = JsVal.fin (min a b) := by
  simp [jsMin, min_def]

/-- With a nonzero duration the coefficient is the finite value
`min (elapsed / duration) 1`. -/
theorem getCoefficient_eq_min (s : AnimatorState) (now : ℚ)
    (h : s.duration ≠ 0) :
    getAnimationCompletionCoefficient s now =
      JsVal.fin (min ((now - startTimeValue s.animationStartTime) / s.duration) 1) := by
  simp [getAnimationCompletionCoefficient, jsDivFin, h, jsMin_fin_fin]

/-- When no callback throws at the given coefficient, the `forEach` loop
delivers the coefficient to every callback in list order and no exception
propagates. -/
theorem runCallbacks_nothrow (cbs : List Callback) (v : JsVal)
    (h : ∀ cb ∈ cbs, cb.throws v = false) :
    runCallbacks cbs v = (cbs.map (fun cb => (cb.id, v)), false) := by
  induction cbs with
  | nil => rfl
  | cons c cs ih =>
    have hc : c.throws v = false := h c (List.mem_cons_self c cs)
    have ih' := ih (fun cb hcb => h cb (List.mem_cons_of_mem c hcb))
    simp [runCallbacks, hc, ih']

/-- Every delivery made by the `forEach` loop goes to the id of some
callback in the list. -/
theorem runCallbacks_mem_id (cbs : List Callback) (v w : JsVal) (a : ℕ)
    (h : (a, w) ∈ (runCallbacks cbs v).1) : a ∈ cbs.map Callback.id := by
  induction cbs with
  | nil => simp [runCallbacks] at h
  | cons c cs ih =>
    by_cases hc : c.throws v
    · simp [runCallbacks, hc] at h
      simp [h.1]
    · simp [runCallbacks, hc] at h
      rcases h with h | h
      · simp [h.1]
      · simpa using Or.inr (by simpa using ih h)

/-- When the callbacks before `ck` do not throw and `ck` does, the
`forEach` loop delivers to the prefix and to `ck` only, and the exception
propagates. -/
theorem runCallbacks_throw_split (pre : List Callback) (ck : Callback)
    (post : List Callback) (v : JsVal)
    (hpre : ∀ cb ∈ pre, cb.throws v = false) (hck : ck.throws v = true) :
    runCallbacks (pre ++ ck :: post) v =
      (pre.map (fun cb => (cb.id, v)) ++ [(ck.id, v)], true) := by
  induction pre with
  | nil => simp [runCallbacks, hck]
  | cons c cs ih =>
    have hc : c.throws v = false := hpre c (by simp)
    have ihr := ih (fun cb hcb => hpre cb (by simp [hcb]))
    simp [runCallbacks, hc, ihr]

/-- The deliveries of one frame are exactly those of the `forEach` loop,
whether or not a callback threw. -/
theorem animationFrame_events (s : AnimatorState) (now : ℚ) (i : ℕ) :
    (animationFrame s now i).events =
      (runCallbacks s.callbacks (getAnimationCompletionCoefficient s now)).1 := by
  unfold animationFrame
  cases hr : (runCallbacks s.callbacks (getAnimationCompletionCoefficient s now)).2 <;>
    simp [hr]

/-- Description of a frame in which no callback throws. -/
theorem animationFrame_nothrow (s : AnimatorState) (now : ℚ) (i : ℕ)
    (h : ∀ cb ∈ s.callbacks,
      cb.throws (getAnimationCompletionCoefficient s now) = false) :
    animationFrame s now i =
      { state := (afterAnimationFrame s (getAnimationCompletionCoefficient s now) i).1,
        events := s.callbacks.map
          (fun cb => (cb.id, getAnimationCompletionCoefficient s now)),
        threw := false,
        scheduled := (afterAnimationFrame s (getAnimationCompletionCoefficient s now) i).2 } := by
  simp [animationFrame, runCallbacks_nothrow _ _ h]

/-- Description of a frame in which callback `ck` throws after a
non-throwing prefix. -/
theorem animationFrame_throw (s : AnimatorState) (now : ℚ) (i : ℕ)
    (pre : List Callback) (ck : Callback) (post : List Callback)
    (hcbs : s.callbacks = pre ++ ck :: post)
    (hpre : ∀ cb ∈ pre,
      cb.throws (getAnimationCompletionCoefficient s now) = false)
    (hck : ck.throws (getAnimationCompletionCoefficient s now) = true) :
    animationFrame s now i =
      { state := s,
        events := pre.map
            (fun cb => (cb.id, getAnimationCompletionCoefficient s now)) ++
          [(ck.id, getAnimationCompletionCoefficient s now)],
        threw := true, scheduled := false } := by
  simp [animationFrame, hcbs, runCallbacks_throw_split _ _ _ _ hpre hck]

/-- C1: in a run with positive duration, a frame whose clock reading has
elapsed time at least the duration computes coefficient exactly 1,
delivers it to every callback, clears both `animationStartTime` and
`requestAnimationFrameID`, and requests no further frame. -/
theorem completion_exactness (s : AnimatorState) (t0 now : ℚ) (i : ℕ)
    (hstart : s.animationStartTime = some t0) (hd : 0 < s.duration)
    (helapsed : s.duration ≤ now - t0)
    (hnothrow : ∀ cb ∈ s.callbacks, cb.throws (JsVal.fin 1) = false) :
    getAnimationCompletionCoefficient s now = JsVal.fin 1 ∧
    (animationFrame s now i).events =
      s.callbacks.map (fun cb => (cb.id, JsVal.fin 1)) ∧
    (animationFrame s now i).state.animationStartTime = none ∧
    (animationFrame s now i).state.requestAnimationFrameID = none ∧
    (animationFrame s now i).scheduled = false := by
  have hdne : s.duration ≠ 0 := ne_of_gt hd
  have h1 : (1 : ℚ) ≤ (now - t0) / s.duration := by
    rw [le_div_iff₀ hd]; linarith
  have hco : getAnimationCompletionCoefficient s now = JsVal.fin 1 := by
    rw [getCoefficient_eq_min s now hdne, hstart]
    simp [startTimeValue, min_eq_right h1]
  have hframe := animationFrame_nothrow s now i
    (fun cb hcb => by rw [hco]; exact hnothrow cb hcb)
  rw [hco] at hframe
  refine ⟨hco, ?_, ?_, ?_, ?_⟩ <;> simp [hframe, afterAnimationFrame]

/-- Witness for C1 at a concrete input: duration 200, one callback,
start time 0, frame at time 200. -/
theorem completion_exactness_witness :
    getAnimationCompletionCoefficient
        { duration := 200, callbacks := [Callback.mk 0 (fun _ => false)],
          animationStartTime := some 0, requestAnimationFrameID := some 0 } 200 =
      JsVal.fin 1 ∧
    (animationFrame
        { duration := 200, callbacks := [Callback.mk 0 (fun _ => false)],
          animationStartTime := some 0, requestAnimationFrameID := some 0 } 200 1).events =
      [Callback.mk 0 (fun _ => false)].map (fun cb => (cb.id, JsVal.fin 1)) ∧
    (animationFrame
        { duration := 200, callbacks := [Callback.mk 0 (fun _ => false)],
          animationStartTime := some 0, requestAnimationFrameID := some 0 } 200 1).state.animationStartTime =
      none ∧
    (animationFrame
        { duration := 200, callbacks := [Callback.mk 0 (fun _ => false)],
          animationStartTime := some 0, requestAnimationFrameID := some 0 } 200 1).state.requestAnimationFrameID =
      none ∧
    (animationFrame
        { duration := 200, callbacks := [Callback.mk 0 (fun _ => false)],
          animationStartTime := some 0, requestAnimationFrameID := some 0 } 200 1).scheduled =
      false :=
  completion_exactness _ 0 200 1 rfl (by norm_num) (by norm_num)
    (by intro cb hcb; rw [List.mem_singleton] at hcb; subst hcb; rfl)

/-- C2: the coefficient is `Math.min(elapsed / duration, 1)` — clamped
only from above; with positive duration and a clock reading before the
start time it is the negative value `elapsed / duration` itself, and
zero durations can deliver `-Infinity` or `NaN`. -/
theorem coefficient_formula_unclamped (t0 d now : ℚ) (cbs : List Callback)
    (rid : Option ℕ) (hd : 0 < d) (hlt : now < t0) :
    (∀ s n, getAnimationCompletionCoefficient s n =
      jsMin (jsDivFin (n - startTimeValue s.animationStartTime) s.duration)
        (JsVal.fin 1)) ∧
    getAnimationCompletionCoefficient
      { duration := d, callbacks := cbs, animationStartTime := some t0,
        requestAnimationFrameID := rid } now = JsVal.fin ((now - t0) / d) ∧
    (now - t0) / d < 0 ∧
    (∃ s n, getAnimationCompletionCoefficient s n = JsVal.negInf) ∧
    (∃ s n, getAnimationCompletionCoefficient s n = JsVal.nan) := by
  have hneg : (now - t0) / d < 0 := div_neg_of_neg_of_pos (by linarith) hd
  refine ⟨fun s n => rfl, ?_, hneg, ?_, ?_⟩
  · rw [getCoefficient_eq_min _ _ (ne_of_gt hd)]
    simp [startTimeValue, min_eq_left (le_of_lt (lt_of_lt_of_le hneg zero_le_one))]
  · refine ⟨⟨0, [], some 1, none⟩, 0, ?_⟩
    norm_num [getAnimationCompletionCoefficient, jsDivFin, jsMin, startTimeValue]
  · refine ⟨⟨0, [], some 0, none⟩, 0, ?_⟩
    norm_num [getAnimationCompletionCoefficient, jsDivFin, jsMin, startTimeValue]

/-- Witness for C2 at a concrete input: start time 1, duration 200,
clock reading 0. -/
theorem coefficient_formula_unclamped_witness :
    (∀ s n, getAnimationCompletionCoefficient s n =
      jsMin (jsDivFin (n - startTimeValue s.animationStartTime) s.duration)
        (JsVal.fin 1)) ∧
    getAnimationCompletionCoefficient
      { duration := 200, callbacks := [], animationStartTime := some 1,
        requestAnimationFrameID := none } 0 = JsVal.fin (((0 : ℚ) - 1) / 200) ∧
    ((0 : ℚ) - 1) / 200 < 0 ∧
    (∃ s n, getAnimationCompletionCoefficient s n = JsVal.negInf) ∧
    (∃ s n, getAnimationCompletionCoefficient s n = JsVal.nan) :=
  coefficient_formula_unclamped 1 200 0 [] none (by norm_num) (by norm_num)

/-- C3: within one run (fixed start time and positive duration), frames
at non-decreasing clock readings not earlier than the start compute
finite coefficients that are non-decreasing and lie in [0, 1]. -/
theorem coefficient_monotone_bounded (t0 d now1 now2 : ℚ) (cbs : List Callback)
    (r1 r2 : Option ℕ) (hd : 0 < d) (h0 : t0 ≤ now1) (h12 : now1 ≤ now2) :
    ∃ q1 q2 : ℚ,
      getAnimationCompletionCoefficient
        { duration := d, callbacks := cbs, animationStartTime := some t0,
          requestAnimationFrameID := r1 } now1 = JsVal.fin q1 ∧
      getAnimationCompletionCoefficient
        { duration := d, callbacks := cbs, animationStartTime := some t0,
          requestAnimationFrameID := r2 } now2 = JsVal.fin q2 ∧
      q1 ≤ q2 ∧ 0 ≤ q1 ∧ q1 ≤ 1 ∧ 0 ≤ q2 ∧ q2 ≤ 1 := by
  refine ⟨min ((now1 - t0) / d) 1, min ((now2 - t0) / d) 1, ?_, ?_, ?_, ?_, ?_, ?_, ?_⟩
  · exact getCoefficient_eq_min _ _ (ne_of_gt hd)
  · exact getCoefficient_eq_min _ _ (ne_of_gt hd)
  · exact min_le_min ((div_le_div_iff_of_pos_right hd).mpr (by linarith)) le_rfl
  · exact le_min (div_nonneg (by linarith) hd.le) zero_le_one
  · exact min_le_right _ _
  · exact le_min (div_nonneg (by linarith) hd.le) zero_le_one
  · exact min_le_right _ _

/-- Witness for C3 at a concrete input: start 0, duration 200, frames at
50 and 100. -/
theorem coefficient_monotone_bounded_witness :
    ∃ q1 q2 : ℚ,
      getAnimationCompletionCoefficient
        { duration := 200, callbacks := [], animationStartTime := some 0,
          requestAnimationFrameID := none } 50 = JsVal.fin q1 ∧
      getAnimationCompletionCoefficient
        { duration := 200, callbacks := [], animationStartTime := some 0,
          requestAnimationFrameID := none } 100 = JsVal.fin q2 ∧
      q1 ≤ q2 ∧ 0 ≤ q1 ∧ q1 ≤ 1 ∧ 0 ≤ q2 ∧ q2 ≤ 1 :=
  coefficient_monotone_bounded 0 200 50 100 [] none none (by norm_num)
    (by norm_num) (by norm_num)

/-- One step preserves `GoodState` when the operation satisfies its
well-behavedness precondition. -/
theorem goodState_step (s : SysState) (op : Op) (hg : GoodState s)
    (hok : okOp s op) : GoodState (sysStep s op).1 := by
  obtain ⟨a, p, n⟩ := s
  obtain ⟨hst, hid, hlen, hnothrow⟩ := hg
  cases op with
  | addCallback c =>
    refine ⟨hst, hid, hlen, fun cb hcb v => ?_⟩
    have hcb' : cb ∈ a.callbacks ∨ cb = c := by
      simpa [sysStep, addCallback] using hcb
    rcases hcb' with h | h
    · exact hnothrow cb h v
    · subst h; exact hok v
  | setDuration d => exact ⟨hst, hid, hlen, hnothrow⟩
  | start now =>
    have hpend : p = [] := by
      by_contra hne
      have h2 := hst.mpr hne
      simp only [okOp] at hok
      rw [hok] at h2
      simp at h2
    subst hpend
    exact ⟨by simp [sysStep, startAnimation], by simp [sysStep, startAnimation],
      by simp [sysStep], hnothrow⟩
  | fire now =>
    cases p with
    | nil => exact ⟨hst, hid, hlen, hnothrow⟩
    | cons h1 rest =>
      have hrest : rest = [] := by simpa using hlen
      subst hrest
      have hnt : ∀ cb ∈ a.callbacks,
          cb.throws (getAnimationCompletionCoefficient a now) = false :=
        fun cb hcb => hnothrow cb hcb _
      have hframe := animationFrame_nothrow a now n hnt
      by_cases hco : getAnimationCompletionCoefficient a now = JsVal.fin 1
      · have haf : afterAnimationFrame a (getAnimationCompletionCoefficient a now) n =
            ({ a with animationStartTime := none, requestAnimationFrameID := none },
              false) := by
          simp [afterAnimationFrame, hco]
        refine ⟨by simp [sysStep, hframe, haf], by simp [sysStep, hframe, haf],
          by simp [sysStep, hframe, haf],
          fun cb hcb v => hnothrow cb (by simpa [sysStep, hframe, haf] using hcb) v⟩
      · have haf : afterAnimationFrame a (getAnimationCompletionCoefficient a now) n =
            ({ a with requestAnimationFrameID := some n }, true) := by
          simp [afterAnimationFrame, hco]
        have hsome : a.animationStartTime.isSome := hst.mpr (by simp)
        refine ⟨by simpa [sysStep, hframe, haf] using hsome,
          by simp [sysStep, hframe, haf], by simp [sysStep, hframe, haf],
          fun cb hcb v => hnothrow cb (by simpa [sysStep, hframe, haf] using hcb) v⟩

/-- A well-behaved run from a good state ends in a good state. -/
theorem goodState_run (ops : List Op) : ∀ s : SysState, GoodState s →
    WellBehaved s ops → GoodState (sysRun s ops) := by
  induction ops with
  | nil => exact fun s hg _ => hg
  | cons op ops ih =>
    exact fun s hg hwb => ih _ (goodState_step s op hg hwb.1) hwb.2

/-- C4 counterexample: calling `startAnimation` twice and then letting
one frame complete the run leaves `animationStartTime` null while the
second run's frame request is still pending, refuting the claimed
invariant over all reachable states. -/
theorem run_state_invariant_counterexample :
    (sysRun sysInit [Op.start 0, Op.start 0, Op.fire 200]).anim.animationStartTime =
      none ∧
    (sysRun sysInit [Op.start 0, Op.start 0, Op.fire 200]).pending ≠ [] := by
  constructor <;>
    simp [sysRun, sysStep, sysInit, initAnimator, startAnimation, animationFrame,
      getAnimationCompletionCoefficient, jsDivFin, jsMin, startTimeValue,
      runCallbacks, afterAnimationFrame]

/-- C4 (amended): in every state reached by a run in which
`startAnimation` is only called while idle and no registered callback
throws, `animationStartTime` is non-null exactly when a frame request is
pending, and likewise for the stored frame handle. -/
theorem run_state_invariant (ops : List Op) (h : WellBehaved sysInit ops) :
    ((sysRun sysInit ops).anim.animationStartTime.isSome ↔
      (sysRun sysInit ops).pending ≠ []) ∧
    ((sysRun sysInit ops).anim.requestAnimationFrameID.isSome ↔
      (sysRun sysInit ops).pending ≠ []) := by
  have hg := goodState_run ops sysInit
    ⟨by simp [sysInit, initAnimator], by simp [sysInit, initAnimator],
      by simp [sysInit], by simp [sysInit, initAnimator]⟩ h
  exact ⟨hg.1, hg.2.1⟩

/-- Witness for C4 at a concrete run: one start, one intermediate frame,
one completing frame. -/
theorem run_state_invariant_witness :
    ((sysRun sysInit [Op.start 0, Op.fire 100, Op.fire 200]).anim.animationStartTime.isSome ↔
      (sysRun sysInit [Op.start 0, Op.fire 100, Op.fire 200]).pending ≠ []) ∧
    ((sysRun sysInit [Op.start 0, Op.fire 100, Op.fire 200]).anim.requestAnimationFrameID.isSome ↔
      (sysRun sysInit [Op.start 0, Op.fire 100, Op.fire 200]).pending ≠ []) :=
  run_state_invariant [Op.start 0, Op.fire 100, Op.fire 200]
    ⟨rfl, trivial, trivial, trivial⟩

/-- C5 counterexample: the mid-run state with duration 200 started at
time 0 delivers coefficient 1/2 at time 100, but after a mid-run
`setDuration(400)` the same frame delivers 1/4 — the remaining frames of
an in-progress run are changed by `setDuration`. -/
theorem setDuration_midrun_counterexample :
    (animationFrame
        (setDuration
          { duration := 200, callbacks := [Callback.mk 0 (fun _ => false)],
            animationStartTime := some 0, requestAnimationFrameID := some 0 } 400)
        100 1).events = [((0 : ℕ), JsVal.fin (1/4))] ∧
    (animationFrame
        { duration := 200, callbacks := [Callback.mk 0 (fun _ => false)],
          animationStartTime := some 0, requestAnimationFrameID := some 0 }
        100 1).events = [((0 : ℕ), JsVal.fin (1/2))] ∧
    JsVal.fin (1/4) ≠ JsVal.fin (1/2) := by
  refine ⟨?_, ?_, ?_⟩ <;>
    norm_num [animationFrame, setDuration, getAnimationCompletionCoefficient,
      jsDivFin, jsMin, startTimeValue, runCallbacks, afterAnimationFrame]

/-- C5 (amended): `setDuration` replaces the stored duration and touches
nothing else; because the coefficient reads the duration fresh each
frame, the remaining frames of an in-progress run use the new duration
with the original start time. -/
theorem setDuration_fresh_read (s : AnimatorState) (d now : ℚ) :
    (setDuration s d).duration = d ∧
    (setDuration s d).callbacks = s.callbacks ∧
    (setDuration s d).animationStartTime = s.animationStartTime ∧
    (setDuration s d).requestAnimationFrameID = s.requestAnimationFrameID ∧
    getAnimationCompletionCoefficient (setDuration s d) now =
      jsMin (jsDivFin (now - startTimeValue s.animationStartTime) d) (JsVal.fin 1) :=
  ⟨rfl, rfl, rfl, rfl, rfl⟩

/-- C6: when no callback throws at the frame's coefficient, the frame
invokes every registered callback exactly once, in registration order,
all with the one coefficient computed before any callback ran. -/
theorem per_frame_dispatch (s : AnimatorState) (now : ℚ) (i : ℕ)
    (h : ∀ cb ∈ s.callbacks,
      cb.throws (getAnimationCompletionCoefficient s now) = false) :
    (animationFrame s now i).events =
      s.callbacks.map (fun cb => (cb.id, getAnimationCompletionCoefficient s now)) ∧
    (animationFrame s now i).threw = false := by
  rw [animationFrame_nothrow s now i h]
  exact ⟨rfl, rfl⟩

/-- Witness for C6 at a concrete input: two callbacks, duration 200,
start 0, frame at 100. -/
theorem per_frame_dispatch_witness :
    (animationFrame
        { duration := 200,
          callbacks := [Callback.mk 0 (fun _ => false), Callback.mk 1 (fun _ => false)],
          animationStartTime := some 0, requestAnimationFrameID := some 0 } 100 1).events =
      [Callback.mk 0 (fun _ => false), Callback.mk 1 (fun _ => false)].map
        (fun cb => (cb.id, getAnimationCompletionCoefficient
          { duration := 200,
            callbacks := [Callback.mk 0 (fun _ => false), Callback.mk 1 (fun _ => false)],
            animationStartTime := some 0, requestAnimationFrameID := some 0 } 100)) ∧
    (animationFrame
        { duration := 200,
          callbacks := [Callback.mk 0 (fun _ => false), Callback.mk 1 (fun _ => false)],
          animationStartTime := some 0, requestAnimationFrameID := some 0 } 100 1).threw =
      false :=
  per_frame_dispatch _ 100 1 (by
    intro cb hcb
    have h2 : cb = Callback.mk 0 (fun _ => false) ∨ cb = Callback.mk 1 (fun _ => false) := by
      simpa using hcb
    rcases h2 with h | h <;> subst h <;> rfl)

/-- C7: `startAnimation` while a run is in progress overwrites the start
time with the new timestamp, stores the handle of a newly requested
frame, leaves the previously pending request in place (no cancellation),
and subsequent coefficient computations use the new start time. -/
theorem reentrant_start (s : SysState) (t0 now : ℚ)
    (hrun : s.anim.animationStartTime = some t0) :
    (sysStep s (Op.start now)).1.anim.animationStartTime = some now ∧
    (sysStep s (Op.start now)).1.anim.requestAnimationFrameID = some s.nextID ∧
    (sysStep s (Op.start now)).1.pending = s.pending ++ [s.nextID] ∧
    (sysStep s (Op.start now)).1.anim.duration = s.anim.duration ∧
    (sysStep s (Op.start now)).1.anim.callbacks = s.anim.callbacks ∧
    (∀ n, getAnimationCompletionCoefficient (sysStep s (Op.start now)).1.anim n =
      jsMin (jsDivFin (n - now) s.anim.duration) (JsVal.fin 1)) :=
  ⟨rfl, rfl, rfl, rfl, rfl, fun n => rfl⟩

/-- Witness for C7 at a concrete input: a running animator restarted at
time 50. -/
theorem reentrant_start_witness :
    (sysStep ⟨⟨200, [], some 0, some 0⟩, [0], 1⟩
      (Op.start 50)).1.anim.animationStartTime = some 50 ∧
    (sysStep ⟨⟨200, [], some 0, some 0⟩, [0], 1⟩
      (Op.start 50)).1.anim.requestAnimationFrameID = some 1 ∧
    (sysStep ⟨⟨200, [], some 0, some 0⟩, [0], 1⟩
      (Op.start 50)).1.pending = [0] ++ [1] ∧
    (sysStep ⟨⟨200, [], some 0, some 0⟩, [0], 1⟩
      (Op.start 50)).1.anim.duration = 200 ∧
    (sysStep ⟨⟨200, [], some 0, some 0⟩, [0], 1⟩
      (Op.start 50)).1.anim.callbacks = [] ∧
    (∀ n, getAnimationCompletionCoefficient
        (sysStep ⟨⟨200, [], some 0, some 0⟩, [0], 1⟩ (Op.start 50)).1.anim n =
      jsMin (jsDivFin (n - 50) 200) (JsVal.fin 1)) :=
  reentrant_start _ 0 50 rfl

/-- C8: a callback with an id not yet registered receives nothing from a
frame dispatched before its registration; once appended, it receives the
coefficient of a frame dispatched afterwards (when no callback throws
there). -/
theorem late_registration (s : AnimatorState) (c : Callback) (now1 now2 : ℚ)
    (i1 i2 : ℕ)
    (hfresh : c.id ∉ s.callbacks.map Callback.id)
    (hnothrow : ∀ cb ∈ s.callbacks,
      cb.throws (getAnimationCompletionCoefficient (addCallback s c) now2) = false)
    (hc : c.throws (getAnimationCompletionCoefficient (addCallback s c) now2) = false) :
    (∀ v, (c.id, v) ∉ (animationFrame s now1 i1).events) ∧
    (c.id, getAnimationCompletionCoefficient (addCallback s c) now2) ∈
      (animationFrame (addCallback s c) now2 i2).events := by
  constructor
  · intro v hv
    rw [animationFrame_events] at hv
    exact hfresh (runCallbacks_mem_id _ _ _ _ hv)
  · have hall : ∀ cb ∈ (addCallback s c).callbacks,
        cb.throws (getAnimationCompletionCoefficient (addCallback s c) now2) = false := by
      intro cb hcb
      have hcb' : cb ∈ s.callbacks ∨ cb = c := by simpa [addCallback] using hcb
      rcases hcb' with h | h
      · exact hnothrow cb h
      · subst h; exact hc
    rw [animationFrame_nothrow _ _ _ hall]
    simp [addCallback]

/-- Witness for C8 at a concrete input: callback id 1 registered after a
frame at time 50, then a frame at time 100. -/
theorem late_registration_witness :
    (∀ v, ((1 : ℕ), v) ∉
      (animationFrame
        { duration := 200, callbacks := [Callback.mk 0 (fun _ => false)],
          animationStartTime := some 0, requestAnimationFrameID := some 0 } 50 1).events) ∧
    ((1 : ℕ), getAnimationCompletionCoefficient
        (addCallback
          { duration := 200, callbacks := [Callback.mk 0 (fun _ => false)],
            animationStartTime := some 0, requestAnimationFrameID := some 0 }
          (Callback.mk 1 (fun _ => false))) 100) ∈
      (animationFrame
        (addCallback
          { duration := 200, callbacks := [Callback.mk 0 (fun _ => false)],
            animationStartTime := some 0, requestAnimationFrameID := some 0 }
          (Callback.mk 1 (fun _ => false))) 100 2).events :=
  late_registration _ (Callback.mk 1 (fun _ => false)) 50 100 1 2 (by simp)
    (by
      intro cb hcb
      have h2 : cb = Callback.mk 0 (fun _ => false) := by simpa using hcb
      subst h2; rfl)
    rfl

/-- C9: when the callback `ck` throws during a frame, the prefix before
it and `ck` itself are the only callbacks invoked, the animator's fields
are left exactly as they were when the frame began, and no next frame is
requested (only the fired request is consumed). -/
theorem callback_exception_propagation (s : SysState) (now : ℚ) (h1 : ℕ)
    (rest : List ℕ) (pre post : List Callback) (ck : Callback)
    (hpend : s.pending = h1 :: rest)
    (hcbs : s.anim.callbacks = pre ++ ck :: post)
    (hpre : ∀ cb ∈ pre,
      cb.throws (getAnimationCompletionCoefficient s.anim now) = false)
    (hck : ck.throws (getAnimationCompletionCoefficient s.anim now) = true) :
    (sysStep s (Op.fire now)).2 =
      pre.map (fun cb => (cb.id, getAnimationCompletionCoefficient s.anim now)) ++
        [(ck.id, getAnimationCompletionCoefficient s.anim now)] ∧
    (sysStep s (Op.fire now)).1.anim = s.anim ∧
    (sysStep s (Op.fire now)).1.pending = rest ∧
    (sysStep s (Op.fire now)).1.nextID = s.nextID := by
  obtain ⟨a, p, n⟩ := s
  dsimp only at hpend hcbs hpre hck ⊢
  subst hpend
  have hframe := animationFrame_throw a now n pre ck post hcbs hpre hck
  refine ⟨?_, ?_, ?_, ?_⟩ <;> simp [sysStep, hframe]

/-- Witness for C9 at a concrete input: callback id 5 throws between
ids 0 and 7 during the frame at time 100. -/
theorem callback_exception_propagation_witness :
    (sysStep
        ⟨⟨200, [Callback.mk 0 (fun _ => false), Callback.mk 5 (fun _ => true),
          Callback.mk 7 (fun _ => false)], some 0, some 0⟩, [0], 1⟩
        (Op.fire 100)).2 =
      [Callback.mk 0 (fun _ => false)].map
        (fun cb => (cb.id, getAnimationCompletionCoefficient
          ⟨200, [Callback.mk 0 (fun _ => false), Callback.mk 5 (fun _ => true),
            Callback.mk 7 (fun _ => false)], some 0, some 0⟩ 100)) ++
        [((5 : ℕ), getAnimationCompletionCoefficient
          ⟨200, [Callback.mk 0 (fun _ => false), Callback.mk 5 (fun _ => true),
            Callback.mk 7 (fun _ => false)], some 0, some 0⟩ 100)] ∧
    (sysStep
        ⟨⟨200, [Callback.mk 0 (fun _ => false), Callback.mk 5 (fun _ => true),
          Callback.mk 7 (fun _ => false)], some 0, some 0⟩, [0], 1⟩
        (Op.fire 100)).1.anim =
      ⟨200, [Callback.mk 0 (fun _ => false), Callback.mk 5 (fun _ => true),
        Callback.mk 7 (fun _ => false)], some 0, some 0⟩ ∧
    (sysStep
        ⟨⟨200, [Callback.mk 0 (fun _ => false), Callback.mk 5 (fun _ => true),
          Callback.mk 7 (fun _ => false)], some 0, some 0⟩, [0], 1⟩
        (Op.fire 100)).1.pending = [] ∧
    (sysStep
        ⟨⟨200, [Callback.mk 0 (fun _ => false), Callback.mk 5 (fun _ => true),
          Callback.mk 7 (fun _ => false)], some 0, some 0⟩, [0], 1⟩
        (Op.fire 100)).1.nextID = 1 :=
  callback_exception_propagation _ 100 0 [] [Callback.mk 0 (fun _ => false)]
    [Callback.mk 7 (fun _ => false)] (Callback.mk 5 (fun _ => true)) rfl rfl
    (by
      intro cb hcb
      have h2 : cb = Callback.mk 0 (fun _ => false) := by simpa using hcb
      subst h2; rfl)
    rfl

/-- C10: `addCallback` only appends one element to the callback list and
`setDuration` only replaces the duration; neither touches the start
time, the stored frame handle, or the other's field. -/
theorem config_frame_conditions (s : AnimatorState) (c : Callback) (d : ℚ) :
    (addCallback s c).callbacks = s.callbacks ++ [c] ∧
    (addCallback s c).duration = s.duration ∧
    (addCallback s c).animationStartTime = s.animationStartTime ∧
    (addCallback s c).requestAnimationFrameID = s.requestAnimationFrameID ∧
    (setDuration s d).duration = d ∧
    (setDuration s d).callbacks = s.callbacks ∧
    (setDuration s d).animationStartTime = s.animationStartTime ∧
    (setDuration s d).requestAnimationFrameID = s.requestAnimationFrameID :=
  ⟨rfl, rfl, rfl, rfl, rfl, rfl, rfl, rfl⟩
